import Mathlib

set_option maxHeartbeats 1000000

/-- Shadow of Python strings: a string is its list of characters. -/
abbrev Str := List Char

/-- Whitespace characters recognized by the tokenizing and trimming helpers. -/
def isSp (c : Char) : Bool := c == ' ' || c == '\t' || c == '\n' || c == '\r'

/-- Shadow of Python lowercasing (ASCII case folding, characterwise). -/
def lower (s : Str) : Str := s.map Char.toLower

/-- Shadow of Python strip: drop leading and trailing whitespace. -/
def strip (s : Str) : Str := ((s.dropWhile isSp).reverse.dropWhile isSp).reverse

/-- Worker for `splitWS`; `acc` holds the characters of the current token reversed. -/
def splitWSAux : Str → Str → List Str
  | [], acc => if acc.isEmpty then [] else [acc.reverse]
  | c :: cs, acc =>
    if isSp c then
      if acc.isEmpty then splitWSAux cs [] else acc.reverse :: splitWSAux cs []
    else splitWSAux cs (c :: acc)

/-- Shadow of Python `split()` with no argument: maximal tokens separated by
runs of whitespace, empty tokens discarded. -/
def splitWS (s : Str) : List Str := splitWSAux s []

/-- Shadow of joining a list of strings with a single space. -/
def joinSp : List Str → Str
  | [] => []
  | [t] => t
  | t :: t2 :: ts => t ++ ' ' :: joinSp (t2 :: ts)

/-- Shadow of replacing every occurrence of space-comma by a comma,
scanning left to right without overlap. -/
def replaceSpComma : Str → Str
  | [] => []
  | [c] => [c]
  | c1 :: c2 :: rest =>
    if c1 == ' ' && c2 == ',' then ',' :: replaceSpComma rest
    else c1 :: replaceSpComma (c2 :: rest)

/-- Shadow of splitting at the first occurrence of the comma-space separator:
the text before the separator and the text after it, or `none` when the
separator does not occur. -/
def splitCommaSpace : Str → Option (Str × Str)
  | [] => none
  | [_] => none
  | c1 :: c2 :: rest =>
    if c1 == ',' && c2 == ' ' then some ([], rest)
    else
      match splitCommaSpace (c2 :: rest) with
      | none => none
      | some (l, g) => some (c1 :: l, g)

/-- Whether the comma-space separator occurs somewhere in the string. -/
def hasCommaSpace : Str → Bool
  | [] => false
  | [_] => false
  | c1 :: c2 :: rest => (c1 == ',' && c2 == ' ') || hasCommaSpace (c2 :: rest)

/-- Decimal digit characters. -/
def digitChar : Nat → Char
  | 0 => '0'
  | 1 => '1'
  | 2 => '2'
  | 3 => '3'
  | 4 => '4'
  | 5 => '5'
  | 6 => '6'
  | 7 => '7'
  | 8 => '8'
  | _ => '9'

/-- Fuel-indexed decimal rendering of a natural number. -/
def natToStrAux : Nat → Nat → Str
  | 0, n => [digitChar n]
  | fuel+1, n =>
    if n < 10 then [digitChar n] else natToStrAux fuel (n / 10) ++ [digitChar (n % 10)]

/-- Shadow of Python `str(n)` for a natural number. -/
def natToStr (n : Nat) : Str := natToStrAux n n

/-- Shadow of Python `str(i)` for an integer. -/
def intToStr (i : Int) : Str := if i < 0 then '-' :: natToStr i.natAbs else natToStr i.natAbs

/-- A row of the directors table: `director_id, given_name, last_name`. -/
structure Director where
  director_id : Nat
  given_name : Str
  last_name : Str
  deriving DecidableEq

/-- The derived display column recomputed on every load:
`last_name + ', ' + given_name`. -/
def display (d : Director) : Str := d.last_name ++ ',' :: ' ' :: d.given_name

/-- A row of the movies table: `movie_id, title, year, genre, director_id`. -/
structure Movie where
  movie_id : Nat
  title : Str
  year : Int
  genre : Str
  director_id : Nat
  deriving DecidableEq

/-- In-memory state of the database: both tables in storage order. -/
structure DB where
  movies : List Movie
  directors : List Director
  deriving DecidableEq

/-- The freshly initialized database: both tables empty. -/
def emptyDB : DB := DB.mk [] []

/-- The error taxonomy of the specification; the source raises a single
`MovieDBError` class in all four situations. -/
inductive DBErr where
  | Duplicate
  | NotFound
  | InvalidQuery
  | Format
  deriving DecidableEq

deriving instance DecidableEq for Except

/-- Name normalization in `add_director`: collapse whitespace runs to single
spaces, then replace space-comma by comma. -/
def normalizeName (raw : Str) : Str := replaceSpComma (joinSp (splitWS raw))

/-- Shadow of `MovieDB.add_director`: returns the registry after the call and
the resolved director id, or a `Format` error when the comma-space separator is
missing from the normalized name. Matching against existing directors compares
lowercased display forms; a new record receives the last stored id plus one. -/
def addDirector (ds : List Director) (raw : Str) : Except DBErr (List Director × Nat) :=
  let name := normalizeName raw
  match splitCommaSpace name with
  | none => Except.error DBErr.Format
  | some (l, g) =>
    match ds.getLast? with
    | none => Except.ok ([Director.mk 1 g l], 1)
    | some dlast =>
      match ds.find? (fun d => lower (display d) == lower name) with
      | some d => Except.ok (ds, d.director_id)
      | none =>
        Except.ok (ds ++ [Director.mk (dlast.director_id + 1) g l], dlast.director_id + 1)

/-- The key an existing movie row contributes to the duplicate check:
lowercased title, year, lowercased genre, director id, concatenated. -/
def dupKey (m : Movie) : Str :=
  lower m.title ++ intToStr m.year ++ lower m.genre ++ natToStr m.director_id

/-- The key computed for the incoming movie: every stringified field
lowercased, concatenated. -/
def dupSearchKey (title : Str) (year : Int) (genre : Str) (did : Nat) : Str :=
  lower title ++ lower (intToStr year) ++ lower genre ++ lower (natToStr did)

/-- Shadow of `MovieDB.is_dup`: whether some existing row's key equals the
incoming movie's key. -/
def is_dup (movies : List Movie) (title : Str) (year : Int) (genre : Str) (did : Nat) : Bool :=
  movies.any (fun m => dupKey m == dupSearchKey title year genre did)

/-- Shadow of `MovieDB.add_movie`: trim title and genre, resolve the director,
then either append the first row with id 1, fail on a duplicate key, or append
with id equal to the last stored id plus one. Returns the state after the call
together with the result. -/
def add_movie (db : DB) (title : Str) (year : Int) (genre : Str) (director : Str) :
    DB × Except DBErr Nat :=
  let t := strip title
  let g := strip genre
  match addDirector db.directors director with
  | Except.error e => (db, Except.error e)
  | Except.ok (ds, did) =>
    match db.movies.getLast? with
    | none => (DB.mk [Movie.mk 1 t year g did] ds, Except.ok 1)
    | some mlast =>
      if is_dup db.movies t year g did then
        (DB.mk db.movies ds, Except.error DBErr.Duplicate)
      else
        (DB.mk (db.movies ++ [Movie.mk (mlast.movie_id + 1) t year g did]) ds,
          Except.ok (mlast.movie_id + 1))

/-- Shadow of `MovieDB.delete_movie`: fail when the id is absent, otherwise
keep exactly the rows whose id differs. -/
def delete_movie (db : DB) (mid : Nat) : DB × Except DBErr Unit :=
  if db.movies.any (fun m => m.movie_id == mid) then
    (DB.mk (db.movies.filter (fun m => m.movie_id != mid)) db.directors, Except.ok ())
  else
    (db, Except.error DBErr.NotFound)

/-- The four optional filters of `search_movies`. -/
structure Query where
  title : Option Str
  year : Option Int
  genre : Option Str
  director_id : Option Nat

/-- Whether all four filters are omitted. -/
def noFilters (q : Query) : Bool :=
  q.title.isNone && q.year.isNone && q.genre.isNone && q.director_id.isNone

/-- The lowercased copy of a movie row used by the search table: the two
string-typed columns are lowercased, the numeric columns kept. -/
def lowerRec (m : Movie) : Movie :=
  Movie.mk m.movie_id (lower m.title) m.year (lower m.genre) m.director_id

/-- Shadow of `MovieDB.search_movies`: fail when no filter is provided;
otherwise lowercase the string columns of the table and successively keep the
rows equal to each provided filter (title and genre lowercased and trimmed on
the query side), returning the surviving movie ids in storage order. -/
def search_movies (db : DB) (q : Query) : Except DBErr (List Nat) :=
  if noFilters q then Except.error DBErr.InvalidQuery
  else
    let t0 := db.movies.map lowerRec
    let t1 := match q.title with
      | none => t0
      | some v => t0.filter (fun m => m.title == lower (strip v))
    let t2 := match q.genre with
      | none => t1
      | some v => t1.filter (fun m => m.genre == lower (strip v))
    let t3 := match q.year with
      | none => t2
      | some v => t2.filter (fun m => m.year == v)
    let t4 := match q.director_id with
      | none => t3
      | some v => t3.filter (fun m => m.director_id == v)
    Except.ok (t4.map (fun m => m.movie_id))

/-- The token list of `MovieDB.token_freq`: join all titles with single
spaces, lowercase the joined string, split on whitespace. -/
def tokenList (db : DB) : List Str :=
  splitWS (lower (joinSp (db.movies.map (fun m => m.title))))

/-- Shadow of `MovieDB.token_freq`, viewed as the counting function of the
returned dictionary: the number of occurrences of a word among the tokens. -/
def token_freq (db : DB) (w : Str) : Nat := (tokenList db).count w

/-- One `add_movie` request. -/
structure AddReq where
  title : Str
  year : Int
  genre : Str
  director : Str
  deriving DecidableEq

/-- Run a sequence of `add_movie` calls, threading the state and collecting
every result in call order. -/
def runAdds : DB → List AddReq → DB × List (Except DBErr Nat)
  | db, [] => (db, [])
  | db, r :: rs =>
    let p := add_movie db r.title r.year r.genre r.director
    let q := runAdds p.1 rs
    (q.1, p.2 :: q.2)

/-- Whether an `add_movie` result is a success. -/
def isOk : Except DBErr Nat → Bool
  | Except.ok _ => true
  | Except.error _ => false

/-- The conjunction of the provided filters, as `search_movies` applies them
to a stored row. -/
def matchesQ (q : Query) (m : Movie) : Bool :=
  (((match q.title with
     | none => true
     | some v => lower m.title == lower (strip v)) &&
    (match q.genre with
     | none => true
     | some v => lower m.genre == lower (strip v))) &&
   (match q.year with
    | none => true
    | some v => m.year == v)) &&
  (match q.director_id with
   | none => true
   | some v => m.director_id == v)

def nmSmith : Str := ['S','m','i','t','h',',',' ','J','o','h','n']

def nmSmithLower : Str := ['s','m','i','t','h',',',' ','j','o','h','n']

def nmDoe : Str := ['D','o','e',',',' ','J','a','n','e']

def nmNoSep : Str := ['M','a','d','o','n','n','a']

theorem toLower_digitChar (n : Nat) : (digitChar n).toLower = digitChar n := by
  match n with
  | 0 => decide
  | 1 => decide
  | 2 => decide
  | 3 => decide
  | 4 => decide
  | 5 => decide
  | 6 => decide
  | 7 => decide
  | 8 => decide
  | m + 9 =>
    show ('9').toLower = '9'
    decide

theorem lower_append (a b : Str) : lower (a ++ b) = lower a ++ lower b := by
  simp [lower]

theorem lower_natToStrAux (fuel n : Nat) : lower (natToStrAux fuel n) = natToStrAux fuel n := by
  induction fuel generalizing n with
  | zero => simp [natToStrAux, lower, toLower_digitChar]
  | succ f ih =>
    by_cases h : n < 10
    · simp [natToStrAux, h, lower, toLower_digitChar]
    · simp only [natToStrAux, if_neg h, lower_append]
      rw [ih]
      simp [lower, toLower_digitChar]

theorem lower_natToStr (n : Nat) : lower (natToStr n) = natToStr n := by
  simp [natToStr, lower_natToStrAux]

theorem lower_intToStr (i : Int) : lower (intToStr i) = intToStr i := by
  by_cases h : i < 0
  · simp only [intToStr, if_pos h, lower]
    simp only [List.map_cons]
    have : ('-').toLower = '-' := by decide
    rw [this]
    have := lower_natToStr i.natAbs
    simp only [lower] at this
    rw [this]
  · simp [intToStr, h, lower_natToStr]

theorem splitCS_eq (s : Str) : ∀ l g, splitCommaSpace s = some (l, g) → s = l ++ ',' :: ' ' :: g := by
  induction s with
  | nil => intro l g h; simp [splitCommaSpace] at h
  | cons c1 rest ih =>
    intro l g h
    match rest with
    | [] => simp [splitCommaSpace] at h
    | c2 :: rest' =>
      by_cases hc : (c1 == ',' && c2 == ' ') = true
      · rw [splitCommaSpace, if_pos hc] at h
        obtain ⟨h1, h2⟩ := And.intro (Option.some.inj h) hc
        obtain ⟨hl, hg⟩ := Prod.mk.injEq .. ▸ h1
        have hc1 : c1 = ',' := by
          have := (Bool.and_eq_true _ _).mp hc
          exact eq_of_beq this.1
        have hc2 : c2 = ' ' := by
          have := (Bool.and_eq_true _ _).mp hc
          exact eq_of_beq this.2
        subst hc1; subst hc2
        rw [← hl, ← hg]
        rfl
      · rw [splitCommaSpace, if_neg hc] at h
        cases hsp : splitCommaSpace (c2 :: rest') with
        | none => rw [hsp] at h; simp at h
        | some p =>
          rw [hsp] at h
          obtain ⟨l', g'⟩ := p
          simp only [Option.some.injEq, Prod.mk.injEq] at h
          obtain ⟨hl, hg⟩ := h
          subst hl
          subst hg
          have := ih l' g' hsp
          rw [List.cons_append, ← this]

theorem splitCS_of_no_sep (s : Str) (h : hasCommaSpace s = false) : splitCommaSpace s = none := by
  induction s with
  | nil => rfl
  | cons c1 rest ih =>
    match rest with
    | [] => rfl
    | c2 :: rest' =>
      rw [hasCommaSpace] at h
      have hc : (c1 == ',' && c2 == ' ') = false := by
        cases hb : (c1 == ',' && c2 == ' ') with
        | false => rfl
        | true => rw [hb] at h; simp at h
      have hrest : hasCommaSpace (c2 :: rest') = false := by
        cases hb : hasCommaSpace (c2 :: rest') with
        | false => rfl
        | true => rw [hb] at h; simp at h
      rw [splitCommaSpace, if_neg (by simp [hc]), ih hrest]

theorem splitWSAux_append_sp (b : Str) : ∀ (a acc : Str),
    splitWSAux (a ++ ' ' :: b) acc = splitWSAux a acc ++ splitWSAux b [] := by
  intro a
  induction a with
  | nil =>
    intro acc
    cases acc with
    | nil => simp [splitWSAux, isSp]
    | cons x xs => simp [splitWSAux, isSp]
  | cons c cs ih =>
    intro acc
    by_cases hc : isSp c = true
    · cases acc with
      | nil => simp [splitWSAux, hc, ih]
      | cons x xs => simp [splitWSAux, hc, ih]
    · simp [splitWSAux, hc, ih]

theorem splitWS_joinSp : ∀ ts : List Str, splitWS (joinSp ts) = (ts.map splitWS).flatten := by
  intro ts
  induction ts with
  | nil => rfl
  | cons t ts ih =>
    cases ts with
    | nil => simp [joinSp, splitWS]
    | cons t2 ts2 =>
      rw [joinSp]
      show splitWSAux (t ++ ' ' :: joinSp (t2 :: ts2)) [] = _
      rw [splitWSAux_append_sp]
      rw [show splitWSAux (joinSp (t2 :: ts2)) [] = splitWS (joinSp (t2 :: ts2)) from rfl]
      rw [ih]
      simp [splitWS]

theorem lower_joinSp : ∀ ts : List Str, lower (joinSp ts) = joinSp (ts.map lower) := by
  intro ts
  induction ts with
  | nil => rfl
  | cons t ts ih =>
    cases ts with
    | nil => rfl
    | cons t2 ts2 =>
      rw [joinSp, lower_append]
      show lower t ++ lower (' ' :: joinSp (t2 :: ts2)) = joinSp (lower t :: lower t2 :: ts2.map lower)
      rw [joinSp]
      simp only [lower, List.map_cons]
      rw [show Char.toLower ' ' = ' ' from by decide]
      rw [show (joinSp (t2 :: ts2)).map Char.toLower = lower (joinSp (t2 :: ts2)) from rfl, ih]
      rfl

theorem addDirector_eq_format (ds : List Director) (raw : Str)
    (hsp : splitCommaSpace (normalizeName raw) = none) :
    addDirector ds raw = Except.error DBErr.Format := by
  simp only [addDirector, hsp]

theorem addDirector_eq_empty (ds : List Director) (raw : Str) (l g : Str)
    (hsp : splitCommaSpace (normalizeName raw) = some (l, g)) (hlast : ds.getLast? = none) :
    addDirector ds raw = Except.ok ([Director.mk 1 g l], 1) := by
  simp only [addDirector, hsp, hlast]

theorem addDirector_eq_found (ds : List Director) (raw : Str) (l g : Str) (dl d : Director)
    (hsp : splitCommaSpace (normalizeName raw) = some (l, g)) (hlast : ds.getLast? = some dl)
    (hf : ds.find? (fun d => lower (display d) == lower (normalizeName raw)) = some d) :
    addDirector ds raw = Except.ok (ds, d.director_id) := by
  simp only [addDirector, hsp, hlast, hf]

theorem addDirector_eq_new (ds : List Director) (raw : Str) (l g : Str) (dl : Director)
    (hsp : splitCommaSpace (normalizeName raw) = some (l, g)) (hlast : ds.getLast? = some dl)
    (hf : ds.find? (fun d => lower (display d) == lower (normalizeName raw)) = none) :
    addDirector ds raw =
      Except.ok (ds ++ [Director.mk (dl.director_id + 1) g l], dl.director_id + 1) := by
  simp only [addDirector, hsp, hlast, hf]

theorem addDirector_stable (ds ds' : List Director) (raw : Str) (i : Nat)
    (h : addDirector ds raw = Except.ok (ds', i)) :
    addDirector ds' raw = Except.ok (ds', i) := by
  cases hsp : splitCommaSpace (normalizeName raw) with
  | none => rw [addDirector_eq_format ds raw hsp] at h; exact absurd h (by simp)
  | some p =>
    obtain ⟨l, g⟩ := p
    have hname : normalizeName raw = l ++ ',' :: ' ' :: g := splitCS_eq _ _ _ hsp
    have hpred : ∀ j : Nat, (lower (display (Director.mk j g l)) == lower (normalizeName raw)) = true := by
      intro j
      have hd : display (Director.mk j g l) = l ++ ',' :: ' ' :: g := rfl
      rw [hd, ← hname]
      exact beq_self_eq_true _
    cases hlast : ds.getLast? with
    | none =>
      rw [addDirector_eq_empty ds raw l g hsp hlast] at h
      simp only [Except.ok.injEq, Prod.mk.injEq] at h
      obtain ⟨h1, h2⟩ := h
      subst h2
      subst h1
      exact addDirector_eq_found _ raw l g _ _ hsp (List.getLast?_singleton _)
        (List.find?_cons_of_pos _ (hpred 1))
    | some dlast =>
      cases hfind : ds.find? (fun d => lower (display d) == lower (normalizeName raw)) with
      | some d =>
        rw [addDirector_eq_found ds raw l g dlast d hsp hlast hfind] at h
        simp only [Except.ok.injEq, Prod.mk.injEq] at h
        obtain ⟨h1, h2⟩ := h
        subst h1
        rw [← h2]
        exact addDirector_eq_found _ raw l g dlast d hsp hlast hfind
      | none =>
        rw [addDirector_eq_new ds raw l g dlast hsp hlast hfind] at h
        simp only [Except.ok.injEq, Prod.mk.injEq] at h
        obtain ⟨h1, h2⟩ := h
        subst h2
        subst h1
        refine addDirector_eq_found _ raw l g (Director.mk (dlast.director_id + 1) g l)
          (Director.mk (dlast.director_id + 1) g l) hsp (List.getLast?_concat _) ?_
        rw [List.find?_append, hfind]
        have hone : List.find? (fun d => lower (display d) == lower (normalizeName raw))
            [Director.mk (dlast.director_id + 1) g l]
            = some (Director.mk (dlast.director_id + 1) g l) :=
          List.find?_cons_of_pos _ (hpred (dlast.director_id + 1))
        rw [hone]
        rfl

theorem is_dup_iff (movies : List Movie) (t : Str) (y : Int) (g : Str) (did : Nat) :
    is_dup movies t y g did = true ↔
      ∃ m ∈ movies,
        lower m.title ++ intToStr m.year ++ lower m.genre ++ natToStr m.director_id
          = lower t ++ intToStr y ++ lower g ++ natToStr did := by
  simp [is_dup, List.any_eq_true, dupKey, dupSearchKey, lower_intToStr, lower_natToStr,
    beq_iff_eq]

theorem add_movie_eq_err (db : DB) (t : Str) (y : Int) (g d : Str) (e : DBErr)
    (had : addDirector db.directors d = Except.error e) :
    add_movie db t y g d = (db, Except.error e) := by
  simp only [add_movie, had]

theorem add_movie_eq_first (db : DB) (t : Str) (y : Int) (g d : Str) (ds : List Director)
    (did : Nat) (had : addDirector db.directors d = Except.ok (ds, did))
    (hnil : db.movies = []) :
    add_movie db t y g d = (DB.mk [Movie.mk 1 (strip t) y (strip g) did] ds, Except.ok 1) := by
  simp only [add_movie, had, hnil, List.getLast?_nil]

theorem add_movie_eq_dup (db : DB) (t : Str) (y : Int) (g d : Str) (ds : List Director)
    (did : Nat) (mlast : Movie) (had : addDirector db.directors d = Except.ok (ds, did))
    (hlast : db.movies.getLast? = some mlast)
    (hdup : is_dup db.movies (strip t) y (strip g) did = true) :
    add_movie db t y g d = (DB.mk db.movies ds, Except.error DBErr.Duplicate) := by
  simp only [add_movie, had, hlast, hdup, if_true]

theorem add_movie_eq_app (db : DB) (t : Str) (y : Int) (g d : Str) (ds : List Director)
    (did : Nat) (mlast : Movie) (had : addDirector db.directors d = Except.ok (ds, did))
    (hlast : db.movies.getLast? = some mlast)
    (hdup : is_dup db.movies (strip t) y (strip g) did = false) :
    add_movie db t y g d =
      (DB.mk (db.movies ++ [Movie.mk (mlast.movie_id + 1) (strip t) y (strip g) did]) ds,
        Except.ok (mlast.movie_id + 1)) := by
  simp only [add_movie, had, hlast, hdup, if_false, Bool.false_eq_true]

theorem add_movie_ok_shape (db db1 : DB) (t : Str) (y : Int) (g d : Str) (k : Nat)
    (h : add_movie db t y g d = (db1, Except.ok k)) :
    ∃ ds did, addDirector db.directors d = Except.ok (ds, did) ∧ db1.directors = ds ∧
      db1.movies = db.movies ++ [Movie.mk k (strip t) y (strip g) did] := by
  cases had : addDirector db.directors d with
  | error e => rw [add_movie_eq_err db t y g d e had] at h; simp at h
  | ok p =>
    obtain ⟨ds, did⟩ := p
    refine ⟨ds, did, rfl, ?_⟩
    cases hlast : db.movies.getLast? with
    | none =>
      have hnil : db.movies = [] := List.getLast?_eq_none_iff.mp hlast
      rw [add_movie_eq_first db t y g d ds did had hnil] at h
      simp only [Prod.mk.injEq, Except.ok.injEq] at h
      obtain ⟨h1, h2⟩ := h
      subst h2
      rw [← h1, hnil]
      exact ⟨rfl, rfl⟩
    | some mlast =>
      cases hdup : is_dup db.movies (strip t) y (strip g) did with
      | true =>
        rw [add_movie_eq_dup db t y g d ds did mlast had hlast hdup] at h
        simp at h
      | false =>
        rw [add_movie_eq_app db t y g d ds did mlast had hlast hdup] at h
        simp only [Prod.mk.injEq, Except.ok.injEq] at h
        obtain ⟨h1, h2⟩ := h
        subst h2
        rw [← h1]
        exact ⟨rfl, rfl⟩

/-- C1: after trimming title and genre and resolving the director string to a
director id, `add_movie` fails with `DuplicateError` if and only if some
existing movie record yields the same concatenated key
lowercase(title) + str(year) + lowercase(genre) + str(director_id); in
particular, calling `add_movie` twice with title and genre identical up to
case, the same year and the same director string fails the second time with
`DuplicateError`. -/
theorem add_movie_duplicate_iff :
    (∀ (db : DB) (title : Str) (year : Int) (genre director : Str)
        (ds : List Director) (did : Nat),
        addDirector db.directors director = Except.ok (ds, did) →
        ((add_movie db title year genre director).2 = Except.error DBErr.Duplicate ↔
          ∃ m ∈ db.movies,
            lower m.title ++ intToStr m.year ++ lower m.genre ++ natToStr m.director_id
              = lower (strip title) ++ intToStr year ++ lower (strip genre) ++ natToStr did))
    ∧
    (∀ (db db1 : DB) (t : Str) (y : Int) (g d : Str) (k : Nat),
        add_movie db t y g d = (db1, Except.ok k) →
        ∀ t2 g2 : Str, lower (strip t2) = lower (strip t) →
          lower (strip g2) = lower (strip g) →
          (add_movie db1 t2 y g2 d).2 = Except.error DBErr.Duplicate) := by
  constructor
  · intro db title year genre director ds did had
    cases hlast : db.movies.getLast? with
    | none =>
      have hnil := List.getLast?_eq_none_iff.mp hlast
      rw [add_movie_eq_first db title year genre director ds did had hnil]
      constructor
      · intro hcon; simp at hcon
      · rintro ⟨m, hm, -⟩; rw [hnil] at hm; simp at hm
    | some mlast =>
      cases hdup : is_dup db.movies (strip title) year (strip genre) did with
      | true =>
        rw [add_movie_eq_dup db title year genre director ds did mlast had hlast hdup]
        constructor
        · intro _
          exact (is_dup_iff db.movies (strip title) year (strip genre) did).mp hdup
        · intro _; rfl
      | false =>
        rw [add_movie_eq_app db title year genre director ds did mlast had hlast hdup]
        constructor
        · intro hcon; simp at hcon
        · intro hex
          have hd := (is_dup_iff db.movies (strip title) year (strip genre) did).mpr hex
          rw [hdup] at hd
          simp at hd
  · intro db db1 t y g d k hok t2 g2 ht hg
    obtain ⟨ds, did, had, hdir, hmov⟩ := add_movie_ok_shape db db1 t y g d k hok
    have hstab : addDirector db1.directors d = Except.ok (ds, did) := by
      rw [hdir]
      exact addDirector_stable db.directors ds d did had
    have hlast1 : db1.movies.getLast? = some (Movie.mk k (strip t) y (strip g) did) := by
      rw [hmov]
      exact List.getLast?_concat _
    have hdup1 : is_dup db1.movies (strip t2) y (strip g2) did = true := by
      refine (is_dup_iff db1.movies (strip t2) y (strip g2) did).mpr ?_
      refine ⟨Movie.mk k (strip t) y (strip g) did, ?_, ?_⟩
      · rw [hmov]
        simp
      · show lower (strip t) ++ intToStr y ++ lower (strip g) ++ natToStr did
          = lower (strip t2) ++ intToStr y ++ lower (strip g2) ++ natToStr did
        rw [ht, hg]
    rw [add_movie_eq_dup db1 t2 y g2 d ds did (Movie.mk k (strip t) y (strip g) did)
      hstab hlast1 hdup1]

def db1W : DB := (add_movie emptyDB ['A','b'] 2010 ['g'] nmSmith).1

theorem add_movie_duplicate_iff_witness :
    (add_movie db1W ['a','B'] 2010 ['G'] nmSmith).2 = Except.error DBErr.Duplicate :=
  add_movie_duplicate_iff.2 emptyDB db1W ['A','b'] 2010 ['g'] nmSmith 1 (by decide)
    ['a','B'] ['G'] (by decide) (by decide)

/-- C2: `resolve_or_create` with the name of an already-known director in any
letter case returns the existing director id and creates no record; in the
concrete scenario, resolving the same surname-comma-given name twice, the
second time all lowercase, returns director id 1 both times and leaves exactly
one Director record. In general, when the normalized display form matches an
existing director case-insensitively, no new record is created and the
existing id is returned; otherwise exactly one new record is appended. -/
theorem addDirector_find_or_create :
    (∃ ds1 : List Director,
      addDirector [] nmSmith = Except.ok (ds1, 1) ∧
      addDirector ds1 nmSmithLower = Except.ok (ds1, 1) ∧
      ds1.length = 1)
    ∧
    (∀ (ds ds' : List Director) (raw : Str) (i : Nat),
      addDirector ds raw = Except.ok (ds', i) →
      ((∃ d ∈ ds, lower (display d) = lower (normalizeName raw) ∧ d.director_id = i) ∧
        ds' = ds)
      ∨ ((∀ d ∈ ds, lower (display d) ≠ lower (normalizeName raw)) ∧
          ∃ dn, ds' = ds ++ [dn] ∧ dn.director_id = i)) := by
  constructor
  · exact ⟨[Director.mk 1 ['J','o','h','n'] ['S','m','i','t','h']], by decide, by decide, rfl⟩
  · intro ds ds' raw i h
    cases hsp : splitCommaSpace (normalizeName raw) with
    | none => rw [addDirector_eq_format ds raw hsp] at h; exact absurd h (by simp)
    | some p =>
      obtain ⟨l, g⟩ := p
      cases hlast : ds.getLast? with
      | none =>
        have hnil := List.getLast?_eq_none_iff.mp hlast
        rw [addDirector_eq_empty ds raw l g hsp hlast] at h
        simp only [Except.ok.injEq, Prod.mk.injEq] at h
        obtain ⟨h1, h2⟩ := h
        right
        constructor
        · intro d hd; rw [hnil] at hd; simp at hd
        · exact ⟨Director.mk 1 g l, by rw [← h1, hnil]; rfl, h2⟩
      | some dlast =>
        cases hfind : ds.find? (fun d => lower (display d) == lower (normalizeName raw)) with
        | some d =>
          rw [addDirector_eq_found ds raw l g dlast d hsp hlast hfind] at h
          simp only [Except.ok.injEq, Prod.mk.injEq] at h
          obtain ⟨h1, h2⟩ := h
          left
          refine ⟨⟨d, List.mem_of_find?_eq_some hfind, ?_, h2⟩, h1.symm⟩
          have hp := List.find?_some hfind
          exact eq_of_beq hp
        | none =>
          rw [addDirector_eq_new ds raw l g dlast hsp hlast hfind] at h
          simp only [Except.ok.injEq, Prod.mk.injEq] at h
          obtain ⟨h1, h2⟩ := h
          right
          constructor
          · intro d hd hcon
            have hne := List.find?_eq_none.mp hfind d hd
            exact hne (by rw [hcon]; exact beq_self_eq_true _)
          · exact ⟨Director.mk (dlast.director_id + 1) g l, h1.symm, h2⟩

def dsW : List Director := [Director.mk 1 ['J','o','h','n'] ['S','m','i','t','h']]

theorem addDirector_find_or_create_witness :
    ((∃ d ∈ dsW, lower (display d) = lower (normalizeName nmSmithLower) ∧ d.director_id = 1) ∧
      dsW = dsW)
    ∨ ((∀ d ∈ dsW, lower (display d) ≠ lower (normalizeName nmSmithLower)) ∧
        ∃ dn, dsW = dsW ++ [dn] ∧ dn.director_id = 1) :=
  addDirector_find_or_create.2 dsW dsW nmSmithLower 1 (by decide)

/-- C6: `search_movies` with all four filters omitted fails with
`InvalidQueryError`, for every catalog state. -/
theorem search_movies_no_filters (db : DB) :
    search_movies db (Query.mk none none none none) = Except.error DBErr.InvalidQuery := rfl

/-- C7: for every raw director name whose normalized form (whitespace runs
collapsed, space before comma removed) contains no comma-space separator,
`add_director` fails with `FormatError`, whatever the registry state. -/
theorem addDirector_format (raw : Str)
    (h : hasCommaSpace (normalizeName raw) = false) :
    ∀ ds : List Director, addDirector ds raw = Except.error DBErr.Format := by
  intro ds
  exact addDirector_eq_format ds raw (splitCS_of_no_sep _ h)

theorem addDirector_format_witness :
    addDirector [] nmNoSep = Except.error DBErr.Format :=
  addDirector_format nmNoSep (by decide) []

theorem delete_movie_eq_pos (db : DB) (mid : Nat)
    (h : db.movies.any (fun m => m.movie_id == mid) = true) :
    delete_movie db mid =
      (DB.mk (db.movies.filter (fun m => m.movie_id != mid)) db.directors, Except.ok ()) := by
  simp [delete_movie, h]

theorem delete_movie_eq_neg (db : DB) (mid : Nat)
    (h : db.movies.any (fun m => m.movie_id == mid) = false) :
    delete_movie db mid = (db, Except.error DBErr.NotFound) := by
  simp [delete_movie, h]

theorem search_movies_eq (db : DB) (q : Query) (h : noFilters q = false) :
    search_movies db q =
      Except.ok ((db.movies.filter (fun m => matchesQ q m)).map (fun m => m.movie_id)) := by
  obtain ⟨ot, oy, og, od⟩ := q
  simp only [search_movies, h, Bool.false_eq_true, if_false]
  cases ot <;> cases og <;> cases oy <;> cases od <;>
    simp [matchesQ, lowerRec, List.filter_map, List.filter_filter, Function.comp_def,
      List.filter_true, Bool.and_assoc, Bool.and_comm, Bool.and_left_comm]

theorem search_ok_sub (db : DB) (q : Query) (l : List Nat)
    (h : search_movies db q = Except.ok l) : ∀ x ∈ l, ∃ m ∈ db.movies, m.movie_id = x := by
  cases hnf : noFilters q with
  | true =>
    simp [search_movies, hnf] at h
  | false =>
    rw [search_movies_eq db q hnf] at h
    simp only [Except.ok.injEq] at h
    subst h
    intro x hx
    obtain ⟨m, hm, hx⟩ := List.mem_map.mp hx
    exact ⟨m, List.mem_of_mem_filter hm, hx⟩

/-- C4: for every catalog state and every `search_movies` call with at least
one filter provided, the result is exactly the movie ids of the records that
satisfy every provided filter (case-insensitive, trimmed-query equality on
title and genre against the lowercased table, exact equality on year and
director id, all combined with logical AND), in storage order. -/
theorem search_movies_filter_spec (db : DB) (q : Query) (h : noFilters q = false) :
    search_movies db q =
      Except.ok ((db.movies.filter (fun m => matchesQ q m)).map (fun m => m.movie_id)) :=
  search_movies_eq db q h

def dbSW : DB := DB.mk
  [Movie.mk 1 ['A'] 2010 ['g'] 1, Movie.mk 2 ['B'] 2011 ['g'] 1,
    Movie.mk 3 ['a'] 2010 ['h'] 2]
  [Director.mk 1 ['J','o','h','n'] ['S','m','i','t','h']]

def qW : Query := Query.mk (some ['a']) none (some ['G']) none

theorem search_movies_filter_spec_witness :
    search_movies dbSW qW =
      Except.ok ((dbSW.movies.filter (fun m => matchesQ qW m)).map (fun m => m.movie_id)) :=
  search_movies_filter_spec dbSW qW (by decide)

/-- C5: `delete_movie` fails with `NotFoundError` exactly when no record with
the given movie id exists; on success it removes exactly the records bearing
that id, after which the id appears in no `search_movies` result and a second
`delete_movie` with the same id fails with `NotFoundError`. -/
theorem delete_movie_spec (db : DB) (mid : Nat) :
    ((delete_movie db mid).2 = Except.error DBErr.NotFound ↔ ∀ m ∈ db.movies, m.movie_id ≠ mid)
    ∧ ((delete_movie db mid).2 = Except.ok () →
        (delete_movie db mid).1.movies = db.movies.filter (fun m => m.movie_id != mid) ∧
        (∀ (q : Query) (l : List Nat),
          search_movies (delete_movie db mid).1 q = Except.ok l → mid ∉ l) ∧
        (delete_movie (delete_movie db mid).1 mid).2 = Except.error DBErr.NotFound) := by
  cases hmem : db.movies.any (fun m => m.movie_id == mid) with
  | false =>
    rw [delete_movie_eq_neg db mid hmem]
    constructor
    · constructor
      · intro _ m hm hcon
        have hne := List.any_eq_false.mp hmem m hm
        exact hne (by rw [hcon]; exact beq_self_eq_true _)
      · intro _; rfl
    · intro hcon; simp at hcon
  | true =>
    rw [delete_movie_eq_pos db mid hmem]
    constructor
    · constructor
      · intro hcon; simp at hcon
      · intro hall
        obtain ⟨m, hm, hp⟩ := List.any_eq_true.mp hmem
        have hp2 := hp
        exact absurd (eq_of_beq hp2) (hall m hm)
    · intro _
      refine ⟨rfl, ?_, ?_⟩
      · intro q l hs hmid
        have hsub := search_ok_sub _ q l hs
        obtain ⟨m, hm, hid⟩ := hsub mid hmid
        have hkept := List.of_mem_filter hm
        rw [hid] at hkept
        simp at hkept
      · have hnone : (DB.mk (db.movies.filter (fun m => m.movie_id != mid))
            db.directors).movies.any (fun m => m.movie_id == mid) = false := by
          refine List.any_eq_false.mpr ?_
          intro m hm hcon
          have hkept := List.of_mem_filter hm
          rw [eq_of_beq hcon] at hkept
          simp at hkept
        rw [delete_movie_eq_neg _ mid hnone]

def dbDelW : DB := DB.mk [Movie.mk 1 ['A'] 2010 ['g'] 1] []

theorem delete_movie_spec_witness :
    (delete_movie (delete_movie dbDelW 1).1 1).2 = Except.error DBErr.NotFound :=
  (((delete_movie_spec dbDelW 1).2 (by decide)).2).2

/-- C3 counterexample: two `add_movie` calls whose (title, year, genre,
director) tuples are distinct (the titles differ in case) do not return the
movie ids 1, 2: the second call fails with `DuplicateError`, because the
duplicate key lowercases the title. -/
theorem add_distinct_tuples_counterexample :
    (['A'] : Str) ≠ (['a'] : Str) ∧
    (runAdds emptyDB
        [AddReq.mk ['A'] 2010 ['g'] nmSmith, AddReq.mk ['a'] 2010 ['g'] nmSmith]).2
      = [Except.ok 1, Except.error DBErr.Duplicate] :=
  ⟨by decide, by decide⟩

theorem range'_getLast (s n : Nat) : (List.range' s (n + 1)).getLast? = some (s + n) := by
  induction n generalizing s with
  | zero => rfl
  | succ n ih =>
    rw [List.range'_succ]
    rw [show List.range' (s + 1) (n + 1) = (s + 1) :: List.range' (s + 1 + 1) n from
      List.range'_succ (s + 1) n 1]
    rw [List.getLast?_cons_cons]
    rw [show (s + 1) :: List.range' (s + 1 + 1) n = List.range' (s + 1) (n + 1) from
      (List.range'_succ (s + 1) n 1).symm]
    rw [ih]
    congr 1
    omega

theorem add_movie_ok_id (db db1 : DB) (t : Str) (y : Int) (g d : Str) (k : Nat)
    (h : add_movie db t y g d = (db1, Except.ok k)) :
    (db.movies = [] ∧ k = 1) ∨
      (∃ mlast, db.movies.getLast? = some mlast ∧ k = mlast.movie_id + 1) := by
  cases had : addDirector db.directors d with
  | error e => rw [add_movie_eq_err db t y g d e had] at h; simp at h
  | ok p =>
    obtain ⟨ds, did⟩ := p
    cases hlast : db.movies.getLast? with
    | none =>
      have hnil : db.movies = [] := List.getLast?_eq_none_iff.mp hlast
      rw [add_movie_eq_first db t y g d ds did had hnil] at h
      simp only [Prod.mk.injEq, Except.ok.injEq] at h
      exact Or.inl ⟨hnil, h.2.symm⟩
    | some mlast =>
      cases hdup : is_dup db.movies (strip t) y (strip g) did with
      | true =>
        rw [add_movie_eq_dup db t y g d ds did mlast had hlast hdup] at h
        simp at h
      | false =>
        rw [add_movie_eq_app db t y g d ds did mlast had hlast hdup] at h
        simp only [Prod.mk.injEq, Except.ok.injEq] at h
        exact Or.inr ⟨mlast, rfl, h.2.symm⟩

theorem add_ok_of_seq (db db1 : DB) (t : Str) (y : Int) (g d : Str) (k m : Nat)
    (hmap : db.movies.map (fun mv => mv.movie_id) = List.range' 1 m)
    (h : add_movie db t y g d = (db1, Except.ok k)) :
    k = m + 1 ∧ db1.movies.map (fun mv => mv.movie_id) = List.range' 1 (m + 1) := by
  obtain ⟨ds, did, had, hdir, hmov⟩ := add_movie_ok_shape db db1 t y g d k h
  have hk : k = m + 1 := by
    cases add_movie_ok_id db db1 t y g d k h with
    | inl hc =>
      obtain ⟨hnil, hk1⟩ := hc
      rw [hnil] at hmap
      have : m = 0 := List.range'_eq_nil.mp hmap.symm
      omega
    | inr hc =>
      obtain ⟨mlast, hlast, hk1⟩ := hc
      have hmne : db.movies ≠ [] := by
        intro hcon
        rw [hcon] at hlast
        simp at hlast
      have hmne2 : m ≠ 0 := by
        intro hcon
        rw [hcon] at hmap
        rw [show List.range' 1 0 = [] from rfl] at hmap
        exact hmne (List.map_eq_nil_iff.mp hmap)
      obtain ⟨m', rfl⟩ : ∃ m', m = m' + 1 := ⟨m - 1, by omega⟩
      have hgl : (db.movies.map (fun mv => mv.movie_id)).getLast? = some (1 + m') := by
        rw [hmap]
        exact range'_getLast 1 m'
      rw [List.getLast?_map, hlast] at hgl
      simp at hgl
      omega
  constructor
  · exact hk
  · rw [hmov, List.map_append, hmap, hk, List.range'_concat]
    simp [Nat.add_comm]

theorem runAdds_seq (reqs : List AddReq) : ∀ (db : DB) (m : Nat),
    db.movies.map (fun mv => mv.movie_id) = List.range' 1 m →
    (runAdds db reqs).2.all isOk = true →
    (runAdds db reqs).2 = (List.range' (m + 1) reqs.length).map Except.ok := by
  induction reqs with
  | nil => intro db m hmap hall; rfl
  | cons r rs ih =>
    intro db m hmap hall
    cases hadd : add_movie db r.title r.year r.genre r.director with
    | mk db1 res =>
      have heq : runAdds db (r :: rs) = ((runAdds db1 rs).1, res :: (runAdds db1 rs).2) := by
        simp only [runAdds, hadd]
      rw [heq] at hall ⊢
      cases res with
      | error e => simp [isOk] at hall
      | ok k =>
        simp only [List.all_cons, Bool.and_eq_true] at hall
        obtain ⟨hk, hinv⟩ := add_ok_of_seq db db1 r.title r.year r.genre r.director k m
          hmap hadd
        have htail := ih db1 (m + 1) hinv hall.2
        show Except.ok k :: (runAdds db1 rs).2 = _
        rw [List.length_cons, List.range'_succ, List.map_cons]
        rw [htail, hk]

/-- C3 (amended): starting from an empty catalog, for every sequence of N
`add_movie` calls in which every call succeeds (equivalently, no call hits a
`FormatError` or a duplicate-key collision — distinct raw tuples alone do not
guarantee this, since the duplicate key is case-insensitive), the returned
movie ids are exactly 1, 2, ..., N in call order; each successful call assigns
the id of the last stored record plus one, or 1 on an empty catalog. -/
theorem add_sequence_ids (reqs : List AddReq)
    (h : (runAdds emptyDB reqs).2.all isOk = true) :
    (runAdds emptyDB reqs).2 = (List.range' 1 reqs.length).map Except.ok :=
  runAdds_seq reqs emptyDB 0 rfl h

theorem add_sequence_ids_witness :
    (runAdds emptyDB
        [AddReq.mk ['A'] 2010 ['g'] nmSmith, AddReq.mk ['B'] 2011 ['h'] nmDoe]).2
      = (List.range' 1 2).map Except.ok :=
  add_sequence_ids _ (by decide)

/-- C8: `token_freq` maps each whitespace token of the space-joined, lowercased
concatenation of all titles to its number of occurrences, and this equals
per-title whitespace tokenization of each lowercased title followed by summing
the per-title counts: the single-space join introduces no cross-title token
conflation. -/
theorem token_freq_spec (db : DB) (w : Str) :
    token_freq db w
      = ((db.movies.map (fun m => splitWS (lower m.title))).map (List.count w)).sum ∧
    tokenList db = (db.movies.map (fun m => splitWS (lower m.title))).flatten := by
  have hflat : tokenList db = (db.movies.map (fun m => splitWS (lower m.title))).flatten := by
    rw [tokenList, lower_joinSp, splitWS_joinSp, List.map_map, List.map_map]
    rfl
  constructor
  · rw [token_freq, hflat, List.count_flatten]
  · exact hflat

theorem pairwise_last_max : ∀ (l : List Movie),
    (l.map (fun mv => mv.movie_id)).Pairwise (fun a b => a < b) →
    ∀ mlast, l.getLast? = some mlast → ∀ m ∈ l, m.movie_id ≤ mlast.movie_id := by
  intro l
  induction l with
  | nil => intro _ mlast hml; simp at hml
  | cons a t ih =>
    intro hp mlast hml m hm
    cases t with
    | nil =>
      simp only [List.getLast?_singleton, Option.some.injEq] at hml
      subst hml
      simp only [List.mem_singleton] at hm
      subst hm
      exact Nat.le_refl _
    | cons b t2 =>
      rw [List.getLast?_cons_cons] at hml
      rw [List.map_cons, List.pairwise_cons] at hp
      obtain ⟨hlt, hp2⟩ := hp
      cases hm with
      | head =>
        have h1 := hlt b.movie_id (by simp)
        have h2 := ih hp2 mlast hml b (by simp)
        omega
      | tail _ hm2 => exact ih hp2 mlast hml m hm2

/-- C9: on every state whose movie rows carry strictly increasing movie ids,
both `add_movie` and `delete_movie` preserve that order, and the last stored
row carries the maximum movie id — which is why the implementation's
last-row-id-plus-one assignment coincides with the max-plus-one rule. -/
theorem movie_ids_sorted_invariant (db : DB)
    (hp : (db.movies.map (fun mv => mv.movie_id)).Pairwise (fun a b => a < b)) :
    (∀ (t : Str) (y : Int) (g d : Str),
      ((add_movie db t y g d).1.movies.map (fun mv => mv.movie_id)).Pairwise
        (fun a b => a < b)) ∧
    (∀ mid : Nat,
      ((delete_movie db mid).1.movies.map (fun mv => mv.movie_id)).Pairwise
        (fun a b => a < b)) ∧
    (∀ mlast, db.movies.getLast? = some mlast → ∀ m ∈ db.movies, m.movie_id ≤ mlast.movie_id) := by
  refine ⟨?_, ?_, pairwise_last_max db.movies hp⟩
  · intro t y g d
    cases had : addDirector db.directors d with
    | error e => rw [add_movie_eq_err db t y g d e had]; exact hp
    | ok p =>
      obtain ⟨ds, did⟩ := p
      cases hlast : db.movies.getLast? with
      | none =>
        have hnil := List.getLast?_eq_none_iff.mp hlast
        rw [add_movie_eq_first db t y g d ds did had hnil]
        simp
      | some mlast =>
        cases hdup : is_dup db.movies (strip t) y (strip g) did with
        | true => rw [add_movie_eq_dup db t y g d ds did mlast had hlast hdup]; exact hp
        | false =>
          rw [add_movie_eq_app db t y g d ds did mlast had hlast hdup]
          show ((db.movies ++ [Movie.mk (mlast.movie_id + 1) (strip t) y (strip g) did]).map
            (fun mv => mv.movie_id)).Pairwise (fun a b => a < b)
          rw [List.map_append, List.pairwise_append]
          refine ⟨hp, by simp, ?_⟩
          intro x hx b hb
          simp only [List.map_cons, List.map_nil, List.mem_singleton] at hb
          obtain ⟨mx, hmx, hxe⟩ := List.mem_map.mp hx
          have := pairwise_last_max db.movies hp mlast hlast mx hmx
          subst hxe
          subst hb
          show mx.movie_id < mlast.movie_id + 1
          omega
  · intro mid
    cases hmem : db.movies.any (fun m => m.movie_id == mid) with
    | false => rw [delete_movie_eq_neg db mid hmem]; exact hp
    | true =>
      rw [delete_movie_eq_pos db mid hmem]
      refine List.Pairwise.sublist ?_ hp
      exact List.Sublist.map _ (List.filter_sublist _)

def db2W : DB := DB.mk [Movie.mk 1 ['A'] 2010 ['g'] 1, Movie.mk 2 ['B'] 2011 ['h'] 1] []

theorem movie_ids_sorted_invariant_witness :
    ((delete_movie db2W 1).1.movies.map (fun mv => mv.movie_id)).Pairwise
      (fun a b => a < b) :=
  ((movie_ids_sorted_invariant db2W (by decide)).2.1) 1

def exDB : DB := DB.mk [Movie.mk 1 ['a'] 2010 ['g'] 12]
  [Director.mk 1 ['J','o','h','n'] ['S','m','i','t','h']]

/-- C10: whenever `add_movie` fails with `DuplicateError` the movie table is
left unchanged (no record appended, no movie id consumed), but the operation is
not atomic across both stores: there is a call that fails with
`DuplicateError` while the director registry has already been extended by the
find-or-create resolution, which runs before the duplicate check. -/
theorem add_movie_nonatomic :
    (∀ (db : DB) (t : Str) (y : Int) (g d : Str),
      (add_movie db t y g d).2 = Except.error DBErr.Duplicate →
      (add_movie db t y g d).1.movies = db.movies) ∧
    ((add_movie exDB ['a'] 2010 ['g','1'] nmDoe).2 = Except.error DBErr.Duplicate ∧
      (add_movie exDB ['a'] 2010 ['g','1'] nmDoe).1.directors
        = exDB.directors ++ [Director.mk 2 ['J','a','n','e'] ['D','o','e']]) := by
  constructor
  · intro db t y g d herr
    cases had : addDirector db.directors d with
    | error e =>
      rw [add_movie_eq_err db t y g d e had]
    | ok p =>
      obtain ⟨ds, did⟩ := p
      cases hlast : db.movies.getLast? with
      | none =>
        have hnil := List.getLast?_eq_none_iff.mp hlast
        rw [add_movie_eq_first db t y g d ds did had hnil] at herr
        simp at herr
      | some mlast =>
        cases hdup : is_dup db.movies (strip t) y (strip g) did with
        | true => rw [add_movie_eq_dup db t y g d ds did mlast had hlast hdup]
        | false =>
          rw [add_movie_eq_app db t y g d ds did mlast had hlast hdup] at herr
          simp at herr
  · exact ⟨by decide, by decide⟩

theorem add_movie_nonatomic_witness :
    (add_movie exDB ['a'] 2010 ['g','1'] nmDoe).1.movies = exDB.movies :=
  add_movie_nonatomic.1 exDB ['a'] 2010 ['g','1'] nmDoe (by decide)
